import Mathlib

/-!
Verification development for the content-addressed store core
(libstore: store paths, content addresses, derivations, path info).

The C++ sources are shallowly embedded as executable Lean definitions:
std::map / std::set become association lists / sorted lists, machine
integers become Nat with explicit reduction mod 2^32 where overflow
matters, and code that throws becomes Except-valued.  External
primitives whose sources are not part of the embedded tree (the hashing
layer, the textual hash codecs) are modelled from the specification and
are marked as such in their doc comments.
-/

set_option maxRecDepth 10000

namespace NixStore

/-! ## Generic list and string helpers -/

/-- Lookup in an association list with String keys (std::map::find). -/
def lookupStr {β : Type} : List (String × β) → String → Option β
  | [], _ => none
  | (k, v) :: t, k' => if k' = k then some v else lookupStr t k'

/-- Insert-or-assign into an association list kept in std::map key order
(lexicographic on the String key). -/
def insertOrAssignStr {β : Type} (k : String) (v : β) : List (String × β) → List (String × β)
  | [] => [(k, v)]
  | (k', v') :: t =>
    if k = k' then (k, v) :: t
    else if k < k' then (k, v) :: (k', v') :: t
    else (k', v') :: insertOrAssignStr k v t

/-- Insert into a sorted-unique list of strings (std::set of strings). -/
def sortedInsertString (s : String) : List String → List String
  | [] => [s]
  | x :: t =>
    if s = x then x :: t
    else if s < x then s :: x :: t
    else x :: sortedInsertString s t

/-- Build a std::set of strings from a list. -/
def stringSetOf (l : List String) : List String :=
  l.foldl (fun acc s => sortedInsertString s acc) []

/-- concatStringsSep from the utility layer: join with a separator. -/
def concatStringsSep (sep : String) (l : List String) : String :=
  String.intercalate sep l

/-! ## Byte-level primitives

A byte is a Nat < 256; a digest is a list of bytes. -/

/-- Bytes of an ASCII string (the embedded code only ever hashes and
renders ASCII data; each Char becomes its code point). -/
def strBytes (s : String) : List Nat :=
  s.data.map Char.toNat

/-- Reduce modulo 2^32 (the C++ code computes in uint32_t). -/
def u32 (n : Nat) : Nat := n % 4294967296

/-- Right rotation of a 32-bit value by r bits. -/
def rotr (r x : Nat) : Nat :=
  u32 ((x >>> r) + ((x % (2 ^ r)) <<< (32 - r)))

/-- Bitwise complement of a 32-bit value. -/
def not32 (x : Nat) : Nat := 4294967295 - x

/-! ## SHA-256

Modelled from the spec: the hashing primitive is an external
collaborator of the core ("a hashing primitive over several
algorithms"); its source is not part of the embedded tree, so the
standard SHA-256 function (FIPS 180-4) is implemented here directly so
that every definition stays executable. -/

/-- SHA-256 round constants. -/
def sha256K : List Nat :=
  [1116352408, 1899447441, 3049323471, 3921009573, 961987163, 1508970993,
   2453635748, 2870763221, 3624381080, 310598401, 607225278, 1426881987,
   1925078388, 2162078206, 2614888103, 3248222580, 3835390401, 4022224774,
   264347078, 604807628, 770255983, 1249150122, 1555081692, 1996064986,
   2554220882, 2821834349, 2952996808, 3210313671, 3336571891, 3584528711,
   113926993, 338241895, 666307205, 773529912, 1294757372, 1396182291,
   1695183700, 1986661051, 2177026350, 2456956037, 2730485921, 2820302411,
   3259730800, 3345764771, 3516065817, 3600352804, 4094571909, 275423344,
   430227734, 506948616, 659060556, 883997877, 958139571, 1322822218,
   1537002063, 1747873779, 1955562222, 2024104815, 2227730452, 2361852424,
   2428436474, 2756734187, 3204031479, 3329325298]

/-- SHA-256 initial hash state. -/
def sha256H0 : List Nat :=
  [1779033703, 3144134277, 1013904242, 2773480762,
   1359893119, 2600822924, 528734635, 1541459225]

/-- Small sigma 0. -/
def ssig0 (x : Nat) : Nat := rotr 7 x ^^^ rotr 18 x ^^^ (x >>> 3)

/-- Small sigma 1. -/
def ssig1 (x : Nat) : Nat := rotr 17 x ^^^ rotr 19 x ^^^ (x >>> 10)

/-- Big sigma 0. -/
def bsig0 (x : Nat) : Nat := rotr 2 x ^^^ rotr 13 x ^^^ rotr 22 x

/-- Big sigma 1. -/
def bsig1 (x : Nat) : Nat := rotr 6 x ^^^ rotr 11 x ^^^ rotr 25 x

/-- Choose function. -/
def chf (x y z : Nat) : Nat := (x &&& y) ^^^ (not32 x &&& z)

/-- Majority function. -/
def majf (x y z : Nat) : Nat := (x &&& y) ^^^ (x &&& z) ^^^ (y &&& z)

/-- One step of the message-schedule extension; the list holds the
schedule so far in reverse order. -/
def wStep (rw : List Nat) : Nat :=
  u32 (ssig1 (rw.getD 1 0) + rw.getD 6 0 + ssig0 (rw.getD 14 0) + rw.getD 15 0)

/-- Extend the (reversed) message schedule by the given number of words. -/
def extendW : Nat → List Nat → List Nat
  | 0, rw => rw
  | k + 1, rw => extendW k (wStep rw :: rw)

/-- One compression round on the 8-word state. -/
def sha256Round (st : List Nat) (wk : Nat × Nat) : List Nat :=
  match st with
  | [a, b, c, d, e, f, g, h] =>
    let t1 := u32 (h + bsig1 e + chf e f g + wk.2 + wk.1)
    let t2 := u32 (bsig0 a + majf a b c)
    [u32 (t1 + t2), a, b, c, u32 (d + t1), e, f, g]
  | other => other

/-- Parse one 64-byte block into 16 big-endian 32-bit words. -/
def blockWords (blk : List Nat) : List Nat :=
  (List.range 16).map fun i =>
    blk.getD (4 * i) 0 <<< 24 + blk.getD (4 * i + 1) 0 <<< 16 +
    blk.getD (4 * i + 2) 0 <<< 8 + blk.getD (4 * i + 3) 0

/-- Process one 64-byte block. -/
def sha256Block (st : List Nat) (blk : List Nat) : List Nat :=
  let w := (extendW 48 (blockWords blk).reverse).reverse
  let st' := (w.zip sha256K).foldl sha256Round st
  List.zipWith (fun x y => u32 (x + y)) st st'

/-- Big-endian bytes of a Nat, fixed width. -/
def natToBytes : Nat → Nat → List Nat
  | 0, _ => []
  | k + 1, n => (n >>> (8 * k)) % 256 :: natToBytes k n

/-- SHA-256 padding: 0x80, zeros, then the 64-bit bit length. -/
def sha256Pad (msg : List Nat) : List Nat :=
  let l := msg.length
  msg ++ 0x80 :: List.replicate ((64 - (l + 9) % 64) % 64) 0 ++ natToBytes 8 (8 * l)

/-- Split a list into chunks of 64, driven by fuel for structural
recursion (fuel is taken to be the length). -/
def chunks64 : Nat → List Nat → List (List Nat)
  | 0, _ => []
  | fuel + 1, l => if l.isEmpty then [] else l.take 64 :: chunks64 fuel (l.drop 64)

/-- SHA-256 of a byte list, as 32 digest bytes. -/
def sha256Bytes (msg : List Nat) : List Nat :=
  let padded := sha256Pad msg
  let final := (chunks64 padded.length padded).foldl sha256Block sha256H0
  final.foldr (fun w acc => natToBytes 4 w ++ acc) []

/-! ## Textual digest encodings

Modelled from the spec: the hash codec layer ("textual encodings
(base-16, base-32 with a fixed lowercase alphabet, and base-64)") is part
of the hashing layer whose source is not in the embedded tree.  The
base-32 encoding follows the spec's fixed alphabet and its prescribed
MSB-first five-bit emission with fixed-width output. -/

/-- Big-endian value of a digest. -/
def bytesToNat : List Nat → Nat
  | [] => 0
  | b :: t => b * 256 ^ t.length + bytesToNat t

/-- The fixed base-32 alphabet. -/
def base32Alphabet : List Char := "0123456789abcdfghijklmnpqrsvwxyz".data

/-- Character for a 5-bit digit. -/
def b32digit (d : Nat) : Char := base32Alphabet.getD d '?'

/-- Value of a base-32 character, none for characters outside the alphabet. -/
def b32val (c : Char) : Option Nat := List.findIdx? (fun x => x = c) base32Alphabet

/-- Length of the base-32 rendering of a digest of the given byte length. -/
def base32Len (byteLen : Nat) : Nat := (byteLen * 8 - 1) / 5 + 1

/-- The k base-32 digits of n, most significant first. -/
def natDigits32 : Nat → Nat → List Char
  | 0, _ => []
  | k + 1, n => b32digit ((n >>> (5 * k)) % 32) :: natDigits32 k n

/-- Base-32 rendering of a digest. -/
def base32EncodeStr (digest : List Nat) : String :=
  String.mk (natDigits32 (base32Len digest.length) (bytesToNat digest))

/-- Accumulating base-32 decoder (most significant digit first). -/
def b32decodeAux : Nat → List Char → Option Nat
  | acc, [] => some acc
  | acc, c :: t =>
    match b32val c with
    | some d => b32decodeAux (acc * 32 + d) t
    | none => none

/-- The hexadecimal alphabet. -/
def hexAlphabet : List Char := "0123456789abcdef".data

/-- Character for a 4-bit digit. -/
def hexDigitChar (d : Nat) : Char := hexAlphabet.getD d '?'

/-- Value of a hexadecimal character. -/
def hexVal (c : Char) : Option Nat := List.findIdx? (fun x => x = c) hexAlphabet

/-- Base-16 rendering of a digest, two lowercase digits per byte. -/
def hexEncodeStr (digest : List Nat) : String :=
  String.mk (digest.foldr (fun b acc => hexDigitChar (b / 16) :: hexDigitChar (b % 16) :: acc) [])

/-- Base-16 decoder. -/
def hexDecode : List Char → Option (List Nat)
  | [] => some []
  | [_] => none
  | c1 :: c2 :: t =>
    match hexVal c1, hexVal c2, hexDecode t with
    | some d1, some d2, some bs => some ((16 * d1 + d2) :: bs)
    | _, _, _ => none

/-- The base-64 alphabet. -/
def base64Alphabet : List Char :=
  "ABCDEFGHIJKLMNOPQRSTUVWXYZabcdefghijklmnopqrstuvwxyz0123456789+/".data

/-- Value of a base-64 character. -/
def b64val (c : Char) : Option Nat := List.findIdx? (fun x => x = c) base64Alphabet

/-- Length of the padded base-64 rendering of a digest. -/
def base64Len (byteLen : Nat) : Nat := (byteLen + 2) / 3 * 4

/-- Character for a 6-bit digit. -/
def b64digit (d : Nat) : Char := base64Alphabet.getD d '?'

/-- Base-64 encoder over 3-byte groups, driven by fuel. -/
def base64EncodeAux : Nat → List Nat → List Char
  | 0, _ => []
  | _, [] => []
  | _ + 1, [b1] => [b64digit (b1 / 4), b64digit (b1 % 4 * 16), '=', '=']
  | _ + 1, [b1, b2] => [b64digit (b1 / 4), b64digit (b1 % 4 * 16 + b2 / 16), b64digit (b2 % 16 * 4), '=']
  | fuel + 1, b1 :: b2 :: b3 :: t =>
    b64digit (b1 / 4) :: b64digit (b1 % 4 * 16 + b2 / 16) ::
    b64digit (b2 % 16 * 4 + b3 / 64) :: b64digit (b3 % 64) :: base64EncodeAux fuel t

/-- Base-64 rendering of a digest. -/
def base64EncodeStr (digest : List Nat) : String :=
  String.mk (base64EncodeAux digest.length digest)

/-- Base-64 decoder over 4-character groups. -/
def base64Decode : List Char → Option (List Nat)
  | [] => some []
  | a :: b :: '=' :: '=' :: [] =>
    match b64val a, b64val b with
    | some da, some db => some [da * 4 + db / 16]
    | _, _ => none
  | a :: b :: c :: '=' :: [] =>
    match b64val a, b64val b, b64val c with
    | some da, some db, some dc => some [da * 4 + db / 16, db % 16 * 16 + dc / 4]
    | _, _, _ => none
  | a :: b :: c :: d :: t =>
    match b64val a, b64val b, b64val c, b64val d, base64Decode t with
    | some da, some db, some dc, some dd, some bs =>
      some ((da * 4 + db / 16) :: (db % 16 * 16 + dc / 4) :: (dc % 4 * 64 + dd) :: bs)
    | _, _, _, _, _ => none
  | _ => none

/-- XOR-fold compression of a digest to the given length: output byte i
is the xor of all input bytes at positions congruent to i mod len.
Modelled from the spec (the hashing layer's source is not in the
embedded tree). -/
def compressHash (digest : List Nat) (len : Nat) : List Nat :=
  (digest.enum).foldl
    (fun acc jb => acc.set (jb.1 % len) (acc.getD (jb.1 % len) 0 ^^^ jb.2))
    (List.replicate len 0)

/-! ## Round-trip facts about the encodings -/

theorem natDigits32_length (k n : Nat) : (natDigits32 k n).length = k := by
  induction k generalizing n with
  | zero => rfl
  | succ k ih => simp [natDigits32, ih]

theorem b32val_b32digit : ∀ d, d < 32 → b32val (b32digit d) = some d := by decide

theorem b32digit_ne_colon : ∀ d, d < 32 → b32digit d ≠ ':' := by decide

theorem colon_notin_natDigits32 (k n : Nat) : ':' ∉ natDigits32 k n := by
  induction k generalizing n with
  | zero => simp [natDigits32]
  | succ k ih =>
    simp only [natDigits32, List.mem_cons, not_or]
    exact ⟨fun h => b32digit_ne_colon _ (Nat.mod_lt _ (by norm_num)) h.symm, ih n⟩

theorem two_pow_5mul (k : Nat) : (2 : Nat) ^ (5 * k) = 32 ^ k := by
  rw [Nat.pow_mul]

theorem two_pow_8mul (k : Nat) : (2 : Nat) ^ (8 * k) = 256 ^ k := by
  rw [Nat.pow_mul]

theorem b32decodeAux_natDigits32 (k : Nat) : ∀ acc n,
    b32decodeAux acc (natDigits32 k n) = some (acc * 32 ^ k + n % 32 ^ k) := by
  induction k with
  | zero => intro acc n; simp [natDigits32, b32decodeAux, Nat.mod_one]
  | succ k ih =>
    intro acc n
    have hv := b32val_b32digit ((n >>> (5 * k)) % 32) (Nat.mod_lt _ (by norm_num))
    simp only [natDigits32, b32decodeAux, hv, ih]
    congr 1
    have hd : (n >>> (5 * k)) % 32 = n / 32 ^ k % 32 := by
      rw [Nat.shiftRight_eq_div_pow, two_pow_5mul]
    have hsplit : n % 32 ^ (k + 1) = n % 32 ^ k + 32 ^ k * (n / 32 ^ k % 32) := by
      rw [pow_succ, Nat.mod_mul]
    rw [hd, hsplit, pow_succ]
    ring

theorem bytesToNat_lt (l : List Nat) (h : ∀ b ∈ l, b < 256) :
    bytesToNat l < 256 ^ l.length := by
  induction l with
  | nil => simp [bytesToNat]
  | cons b t ih =>
    have hb : b < 256 := h b (List.mem_cons_self _ _)
    have ht := ih (fun x hx => h x (List.mem_cons_of_mem _ hx))
    simp only [bytesToNat, List.length_cons, pow_succ]
    calc b * 256 ^ t.length + bytesToNat t
        < b * 256 ^ t.length + 256 ^ t.length := by omega
      _ = (b + 1) * 256 ^ t.length := by ring
      _ ≤ 256 * 256 ^ t.length := Nat.mul_le_mul_right _ (by omega)
      _ = 256 ^ t.length * 256 := by ring

theorem natToBytes_irrel (k : Nat) : ∀ b m, natToBytes k (b * 256 ^ k + m) = natToBytes k m := by
  induction k with
  | zero => intro b m; rfl
  | succ k ih =>
    intro b m
    simp only [natToBytes, List.cons.injEq]
    refine ⟨?_, ?_⟩
    · rw [Nat.shiftRight_eq_div_pow, Nat.shiftRight_eq_div_pow, two_pow_8mul]
      have h1 : b * 256 ^ (k + 1) + m = m + b * 256 * 256 ^ k := by ring
      rw [h1, Nat.add_mul_div_right _ _ (pow_pos (by norm_num) k), Nat.add_mul_mod_self_right]
    · have h2 : b * 256 ^ (k + 1) + m = b * 256 * 256 ^ k + m := by ring
      rw [h2, ih (b * 256) m]

theorem natToBytes_bytesToNat (l : List Nat) (h : ∀ b ∈ l, b < 256) :
    natToBytes l.length (bytesToNat l) = l := by
  induction l with
  | nil => rfl
  | cons b t ih =>
    have hb : b < 256 := h b (List.mem_cons_self _ _)
    have ht : ∀ x ∈ t, x < 256 := fun x hx => h x (List.mem_cons_of_mem _ hx)
    have hlt := bytesToNat_lt t ht
    simp only [List.length_cons, bytesToNat, natToBytes, List.cons.injEq]
    refine ⟨?_, ?_⟩
    · rw [Nat.shiftRight_eq_div_pow, two_pow_8mul,
        Nat.mul_comm b, Nat.mul_add_div (pow_pos (by norm_num) _),
        Nat.div_eq_of_lt hlt, Nat.add_zero, Nat.mod_eq_of_lt hb]
    · rw [natToBytes_irrel t.length b (bytesToNat t)]
      exact ih ht

theorem bytesToNat_lt_pow32 (l : List Nat) (h : ∀ b ∈ l, b < 256) :
    bytesToNat l < 32 ^ base32Len l.length := by
  have h1 := bytesToNat_lt l h
  have h2 : (256 : Nat) ^ l.length ≤ 32 ^ base32Len l.length := by
    rw [← two_pow_8mul, ← two_pow_5mul]
    apply Nat.pow_le_pow_right (by norm_num)
    unfold base32Len
    omega
  omega

/-- Decoding a base-32 rendered digest recovers its value. -/
theorem b32decode_base32Encode (l : List Nat) (h : ∀ b ∈ l, b < 256) :
    b32decodeAux 0 (natDigits32 (base32Len l.length) (bytesToNat l)) = some (bytesToNat l) := by
  rw [b32decodeAux_natDigits32]
  congr 1
  rw [Nat.zero_mul, Nat.zero_add, Nat.mod_eq_of_lt (bytesToNat_lt_pow32 l h)]

theorem strData_append : ∀ a b : String, (a ++ b).data = a.data ++ b.data :=
  fun ⟨_⟩ ⟨_⟩ => rfl

theorem strMk_data : ∀ s : String, String.mk s.data = s :=
  fun ⟨_⟩ => rfl

/-! ## Error model

Exceptions thrown by the embedded code: Error with its message, failed
assertions (and dereferences of empty optionals, which are undefined
behaviour in the source), and map::at misses. -/

inductive Err
  | error (msg : String)
  | assertFail
  | outOfRange
deriving DecidableEq

deriving instance DecidableEq for Except

/-! ## Hashes

The Hash data type and its textual codecs live in the hashing layer,
whose source is not part of the embedded tree.  Modelled from the spec:
a hash is an algorithm tag plus a fixed-length digest, and "textual
renderings carry a type prefix" around a base-16/base-32/base-64 body. -/

inductive HashType
  | md5
  | sha1
  | sha256
  | sha512
deriving DecidableEq

/-- Digest length in bytes for each algorithm. -/
def hashSize : HashType → Nat
  | .md5 => 16
  | .sha1 => 20
  | .sha256 => 32
  | .sha512 => 64

/-- Name of each algorithm as it appears in textual renderings. -/
def printHashType : HashType → String
  | .md5 => "md5"
  | .sha1 => "sha1"
  | .sha256 => "sha256"
  | .sha512 => "sha512"

/-- Parse an algorithm name (parseHashType). -/
def parseHashType (s : String) : Option HashType :=
  if s = "md5" then some .md5
  else if s = "sha1" then some .sha1
  else if s = "sha256" then some .sha256
  else if s = "sha512" then some .sha512
  else none

structure Hash where
  type : HashType
  digest : List Nat
deriving DecidableEq

/-- Well-formedness of a digest: native length, byte-valued entries. -/
def Hash.wf (h : Hash) : Prop :=
  h.digest.length = hashSize h.type ∧ ∀ b ∈ h.digest, b < 256

instance (h : Hash) : Decidable h.wf := by unfold Hash.wf; infer_instance

/-- Rendering bases of Hash::to_string (the SRI base does not occur in
the embedded code and is omitted). -/
inductive Base
  | base16
  | base32
  | base64
deriving DecidableEq

/-- Hash::to_string: optional "algo:" prefix followed by the digest body. -/
def hashToString (h : Hash) (base : Base) (includeType : Bool) : String :=
  (if includeType then printHashType h.type ++ ":" else "") ++
  (match base with
   | .base16 => hexEncodeStr h.digest
   | .base32 => base32EncodeStr h.digest
   | .base64 => base64EncodeStr h.digest)

/-- Split a character list at its first colon (string::find of ':' plus
the two substrings around it). -/
def splitFirstColon : List Char → Option (List Char × List Char)
  | [] => none
  | c :: t =>
    if c = ':' then some ([], t)
    else
      match splitFirstColon t with
      | some (a, b) => some (c :: a, b)
      | none => none

/-- The one-argument Hash constructor: parse "algo:body", where the body
is recognised as base-16, base-32 or base-64 by its length. -/
def parseHash (s : String) : Except Err Hash :=
  match splitFirstColon s.data with
  | none => .error (.error ("hash '" ++ s ++ "' does not include a type"))
  | some (pre, rest) =>
    match parseHashType (String.mk pre) with
    | none => .error (.error ("unknown hash algorithm '" ++ String.mk pre ++ "'"))
    | some ht =>
      if rest.length = hashSize ht * 2 then
        match hexDecode rest with
        | some digest => .ok ⟨ht, digest⟩
        | none => .error (.error "invalid base-16 hash")
      else if rest.length = base32Len (hashSize ht) then
        match b32decodeAux 0 rest with
        | some n =>
          if n < 256 ^ hashSize ht then .ok ⟨ht, natToBytes (hashSize ht) n⟩
          else .error (.error "invalid base-32 hash")
        | none => .error (.error "invalid base-32 hash")
      else if rest.length = base64Len (hashSize ht) then
        match base64Decode rest with
        | some digest =>
          if digest.length = hashSize ht then .ok ⟨ht, digest⟩
          else .error (.error "invalid base-64 hash")
        | none => .error (.error "invalid base-64 hash")
      else .error (.error ("hash '" ++ s ++ "' has wrong length"))

/-- hashString(htSHA256, s): the only hashString algorithm the embedded
code invokes. -/
def hashStringSHA256 (s : String) : Hash :=
  ⟨.sha256, sha256Bytes (strBytes s)⟩

theorem splitFirstColon_append (l1 l2 : List Char) (h : ':' ∉ l1) :
    splitFirstColon (l1 ++ ':' :: l2) = some (l1, l2) := by
  induction l1 with
  | nil => simp [splitFirstColon]
  | cons c t ih =>
    have hc : ¬(c = ':') := fun hc => h (hc ▸ List.mem_cons_self _ _)
    have ht : ':' ∉ t := fun hm => h (List.mem_cons_of_mem _ hm)
    simp [splitFirstColon, hc, ih ht]

theorem colon_notin_printHashType (t : HashType) : ':' ∉ (printHashType t).data := by
  cases t <;> decide

theorem parseHashType_printHashType (t : HashType) :
    parseHashType (printHashType t) = some t := by
  cases t <;> rfl

theorem hashToString32_data (h : Hash) :
    (hashToString h .base32 true).data
      = (printHashType h.type).data
        ++ ':' :: natDigits32 (base32Len h.digest.length) (bytesToNat h.digest) := by
  show ((printHashType h.type ++ ":") ++ base32EncodeStr h.digest).data = _
  rw [strData_append, strData_append]
  simp [base32EncodeStr]

theorem base32Len_ne_hex : ∀ t : HashType, ¬(base32Len (hashSize t) = hashSize t * 2) := by
  intro t; cases t <;> decide

/-- Parsing a rendered (base-32, type-prefixed) hash recovers it. -/
theorem parseHash_hashToString32 (h : Hash) (hwf : h.wf) :
    parseHash (hashToString h .base32 true) = .ok h := by
  obtain ⟨hlen, hbytes⟩ := hwf
  have hsplit : splitFirstColon (hashToString h .base32 true).data
      = some ((printHashType h.type).data,
              natDigits32 (base32Len h.digest.length) (bytesToNat h.digest)) := by
    rw [hashToString32_data]
    exact splitFirstColon_append _ _ (colon_notin_printHashType h.type)
  have hlen32 : (natDigits32 (base32Len h.digest.length) (bytesToNat h.digest)).length
      = base32Len (hashSize h.type) := by rw [natDigits32_length, hlen]
  have hdec : b32decodeAux 0 (natDigits32 (base32Len h.digest.length) (bytesToNat h.digest))
      = some (bytesToNat h.digest) := b32decode_base32Encode h.digest hbytes
  have hval : bytesToNat h.digest < 256 ^ hashSize h.type := by
    have := bytesToNat_lt h.digest hbytes
    rwa [hlen] at this
  have hback : natToBytes (hashSize h.type) (bytesToNat h.digest) = h.digest := by
    rw [← hlen]
    exact natToBytes_bytesToNat h.digest hbytes
  simp only [parseHash, hsplit, strMk_data, parseHashType_printHashType, hlen32,
    base32Len_ne_hex h.type, if_false, if_true, hdec, hval, if_pos, hback]

/-! ## Store paths

The StorePath class itself lives in the path layer whose source is not
in the embedded tree.  Modelled from the spec: a store path is a
32-character hash part (the base-32 rendering of a 20-byte digest)
together with a name; its printed form is storeDirectory/hashPart-name. -/

structure StorePath where
  hashPart : String
  name : String
deriving DecidableEq

/-- StorePath::to_string, i.e. hashPart-name. -/
def spToString (p : StorePath) : String :=
  p.hashPart ++ "-" ++ p.name

/-- Construct a StorePath from a 20-byte compressed digest and a name
(the StorePath(Hash, name) constructor). -/
def storePathOfHash (digest20 : List Nat) (name : String) : StorePath :=
  ⟨base32EncodeStr digest20, name⟩

/-- Stand-in value produced when the source dereferences an absent
optional StorePath, which is undefined behaviour in C++. -/
def undefinedStorePath : StorePath :=
  ⟨"", ""⟩

/-- The Store object, reduced to the state the embedded functions read:
its store directory. -/
structure Store where
  storeDir : String
deriving DecidableEq

/-- Store::printStorePath. -/
def printStorePath (store : Store) (p : StorePath) : String :=
  store.storeDir ++ "/" ++ spToString p

/-- Insert into a sorted-unique list of StorePaths (std::set of
StorePath, ordered by its to_string form). -/
def sortedInsertSP (p : StorePath) : List StorePath → List StorePath
  | [] => [p]
  | q :: t =>
    if p = q then q :: t
    else if spToString p < spToString q then p :: q :: t
    else q :: sortedInsertSP p t

/-- Store::printStorePathSet: print every path and collect into a
std::set of strings (sorted, unique). -/
def printStorePathSet (store : Store) (paths : List StorePath) : List String :=
  stringSetOf (paths.map (printStorePath store))

/-- Lookup in a std::map keyed by StorePath. -/
def lookupSP {β : Type} : List (StorePath × β) → StorePath → Option β
  | [], _ => none
  | (k, v) :: t, k' => if k' = k then some v else lookupSP t k'

/-- Insert-or-assign into a std::map keyed by StorePath. -/
def insertOrAssignSP {β : Type} (k : StorePath) (v : β) : List (StorePath × β) → List (StorePath × β)
  | [] => [(k, v)]
  | (k', v') :: t =>
    if k = k' then (k, v) :: t
    else if spToString k < spToString k' then (k, v) :: (k', v') :: t
    else (k', v') :: insertOrAssignSP k v t

/-! ## Content addresses, first generation (content-address.cc)

The implementation file embeds the two-alternative variant its visitors
handle: TextHash and FileSystemHash. -/

inductive FileIngestionMethod
  | Flat
  | Recursive
  | Git
deriving DecidableEq

structure TextHash where
  hash : Hash
deriving DecidableEq

structure FileSystemHash where
  method : FileIngestionMethod
  hash : Hash
deriving DecidableEq

inductive ContentAddress
  | text (th : TextHash)
  | fileSystem (fsh : FileSystemHash)
deriving DecidableEq

/-- makeFileIngestionPrefix: the ingestion tag glued before the hash. -/
def makeFileIngestionPrefixString : FileIngestionMethod → String
  | .Flat => ""
  | .Recursive => "r:"
  | .Git => "git:"

/-- makeFixedOutputCA: the "fixed:..." rendering. -/
def makeFixedOutputCA (method : FileIngestionMethod) (hash : Hash) : String :=
  "fixed:" ++ makeFileIngestionPrefixString method ++ hashToString hash .base32 true

/-- renderContentAddress. -/
def renderContentAddress : ContentAddress → String
  | .text th => "text:" ++ hashToString th.hash .base32 true
  | .fileSystem fsh => makeFixedOutputCA fsh.method fsh.hash

/-- parseContentAddress: strictly prefix-driven parsing.  The substr
comparisons of the source become take/drop on the character list. -/
def parseContentAddress (rawCa : String) : Except Err ContentAddress :=
  match splitFirstColon rawCa.data with
  | some (pre, rest) =>
    if String.mk pre = "text" then
      match parseHash (String.mk rest) with
      | .ok hash =>
        if hash.type = .sha256 then .ok (.text ⟨hash⟩)
        else .error (.error "parseContentAddress: the text hash should have type SHA256")
      | .error e => .error e
    else if String.mk pre = "fixed" then
      if rest.take 2 = ['r', ':'] then
        (parseHash (String.mk (rest.drop 2))).map (fun h => .fileSystem ⟨.Recursive, h⟩)
      else if rest.take 4 = ['g', 'i', 't', ':'] then
        (parseHash (String.mk (rest.drop 4))).map (fun h => .fileSystem ⟨.Git, h⟩)
      else
        (parseHash (String.mk rest)).map (fun h => .fileSystem ⟨.Flat, h⟩)
    else .error (.error "parseContentAddress: format not recognized; has to be text or fixed")
  | none => .error (.error "Not a content address because it lacks an appropriate prefix")

/-- parseContentAddressOpt: the empty string denotes an absent content
address. -/
def parseContentAddressOpt (rawCaOpt : String) : Except Err (Option ContentAddress) :=
  if rawCaOpt = "" then .ok none else (parseContentAddress rawCaOpt).map some

/-- Well-formedness of a first-generation content address: the digest is
well-formed. -/
def ContentAddress.wf : ContentAddress → Prop
  | .text th => th.hash.wf
  | .fileSystem fsh => fsh.hash.wf

instance (ca : ContentAddress) : Decidable ca.wf := by
  cases ca <;> (unfold ContentAddress.wf; infer_instance)

/-- Modelled from the spec: the rendering the spec prescribes for the
Peer variant, "ipfs:" followed by the CID form "f01711220" + hex(h).
The embedded parser and renderer have no such variant. -/
def renderPeerSpec (h : Hash) : String :=
  "ipfs:" ++ ("f01711220" ++ hexEncodeStr h.digest)

theorem parseContentAddress_render_aux (ca : ContentAddress) (hwf : ca.wf)
    (htext : ∀ th, ca = .text th → th.hash.type = .sha256) :
    parseContentAddress (renderContentAddress ca) = .ok ca := by
  cases ca with
  | text th =>
    have hty := htext th rfl
    have hsplit : splitFirstColon (renderContentAddress (.text th)).data
        = some ("text".data, (hashToString th.hash .base32 true).data) := by
      have hd : (renderContentAddress (.text th)).data
          = "text".data ++ ':' :: (hashToString th.hash .base32 true).data := by
        show ("text:" ++ hashToString th.hash .base32 true).data = _
        rw [strData_append]
        rfl
      rw [hd]
      exact splitFirstColon_append _ _ (by decide)
    have hparse : parseHash (String.mk (hashToString th.hash .base32 true).data) = .ok th.hash := by
      rw [strMk_data]
      exact parseHash_hashToString32 th.hash hwf
    simp [parseContentAddress, hsplit, strMk_data, hparse, hty]
  | fileSystem fsh =>
    have hwf' : fsh.hash.wf := hwf
    obtain ⟨m, hh⟩ := fsh
    have hparse : parseHash (String.mk (hashToString hh .base32 true).data) = .ok hh := by
      rw [strMk_data]
      exact parseHash_hashToString32 hh hwf'
    cases m with
    | Flat =>
      have hsplit : splitFirstColon (renderContentAddress (.fileSystem ⟨.Flat, hh⟩)).data
          = some ("fixed".data, (hashToString hh .base32 true).data) := by
        have hd : (renderContentAddress (.fileSystem ⟨.Flat, hh⟩)).data
            = "fixed".data ++ ':' :: (hashToString hh .base32 true).data := by
          show (("fixed:" ++ "") ++ hashToString hh .base32 true).data = _
          rw [strData_append, strData_append]
          rfl
        rw [hd]
        exact splitFirstColon_append _ _ (by decide)
      obtain ⟨t, digest⟩ := hh
      have hsd := hashToString32_data ⟨t, digest⟩
      have h2 : (hashToString ⟨t, digest⟩ .base32 true).data.take 2 ≠ ['r', ':'] := by
        rw [hsd]
        cases t with
        | md5 => show (['m', 'd'] : List Char) ≠ ['r', ':']; decide
        | sha1 => show (['s', 'h'] : List Char) ≠ ['r', ':']; decide
        | sha256 => show (['s', 'h'] : List Char) ≠ ['r', ':']; decide
        | sha512 => show (['s', 'h'] : List Char) ≠ ['r', ':']; decide
      have h4 : (hashToString ⟨t, digest⟩ .base32 true).data.take 4 ≠ ['g', 'i', 't', ':'] := by
        rw [hsd]
        cases t with
        | md5 => show (['m', 'd', '5', ':'] : List Char) ≠ ['g', 'i', 't', ':']; decide
        | sha1 => show (['s', 'h', 'a', '1'] : List Char) ≠ ['g', 'i', 't', ':']; decide
        | sha256 => show (['s', 'h', 'a', '2'] : List Char) ≠ ['g', 'i', 't', ':']; decide
        | sha512 => show (['s', 'h', 'a', '5'] : List Char) ≠ ['g', 'i', 't', ':']; decide
      simp [parseContentAddress, hsplit, strMk_data, h2, h4, hparse, Except.map]
    | Recursive =>
      have hsplit : splitFirstColon (renderContentAddress (.fileSystem ⟨.Recursive, hh⟩)).data
          = some ("fixed".data, 'r' :: ':' :: (hashToString hh .base32 true).data) := by
        have hd : (renderContentAddress (.fileSystem ⟨.Recursive, hh⟩)).data
            = "fixed".data ++ ':' :: ('r' :: ':' :: (hashToString hh .base32 true).data) := by
          show (("fixed:" ++ "r:") ++ hashToString hh .base32 true).data = _
          rw [strData_append, strData_append]
          rfl
        rw [hd]
        exact splitFirstColon_append _ _ (by decide)
      simp [parseContentAddress, hsplit, strMk_data, hparse, Except.map]
    | Git =>
      have hsplit : splitFirstColon (renderContentAddress (.fileSystem ⟨.Git, hh⟩)).data
          = some ("fixed".data, 'g' :: 'i' :: 't' :: ':' :: (hashToString hh .base32 true).data) := by
        have hd : (renderContentAddress (.fileSystem ⟨.Git, hh⟩)).data
            = "fixed".data ++ ':' :: ('g' :: 'i' :: 't' :: ':' :: (hashToString hh .base32 true).data) := by
          show (("fixed:" ++ "git:") ++ hashToString hh .base32 true).data = _
          rw [strData_append, strData_append]
          rfl
        rw [hd]
        exact splitFirstColon_append _ _ (by decide)
      simp [parseContentAddress, hsplit, strMk_data, hparse, Except.map]

/-- C4: parseContentAddress inverts renderContentAddress on every
first-generation content address (Text carrying its SHA-256 hash, and
FixedOutput with Flat, Recursive or Git ingestion); a string whose
prefix is neither "text" nor "fixed" fails with an error; and the empty
string parses to absent through parseContentAddressOpt.  Amended from
the claim: the cited implementation has no Peer variant, so the
round-trip cannot cover it, and a Text hash of another type is rejected
on re-parsing. -/
theorem parseContentAddress_renderContentAddress_roundTrip :
    (∀ ca : ContentAddress, ca.wf → (∀ th, ca = .text th → th.hash.type = .sha256) →
      parseContentAddress (renderContentAddress ca) = .ok ca)
    ∧ (∀ s pre rest, splitFirstColon s.data = some (pre, rest) →
        String.mk pre ≠ "text" → String.mk pre ≠ "fixed" →
        parseContentAddress s
          = .error (.error "parseContentAddress: format not recognized; has to be text or fixed"))
    ∧ parseContentAddressOpt "" = .ok none := by
  refine ⟨parseContentAddress_render_aux, ?_, by decide⟩
  intro s pre rest hsplit h1 h2
  simp [parseContentAddress, hsplit, h1, h2]

/-- C4 counterexample: the rendering the spec prescribes for the Peer
variant is rejected by the cited parser, so the round-trip claim is
false for Peer content addresses. -/
theorem parseContentAddress_peer_counterexample :
    parseContentAddress (renderPeerSpec ⟨.sha256, List.replicate 32 0⟩)
      = .error (.error "parseContentAddress: format not recognized; has to be text or fixed") := by
  decide

/-- C4 witness: the round-trip theorem applied to a concrete flat
SHA-256 fixed-output content address. -/
theorem parseContentAddress_roundTrip_witness :
    (ContentAddress.fileSystem ⟨.Flat, ⟨.sha256, List.replicate 32 0⟩⟩).wf
    ∧ parseContentAddress
        (renderContentAddress (.fileSystem ⟨.Flat, ⟨.sha256, List.replicate 32 0⟩⟩))
        = .ok (.fileSystem ⟨.Flat, ⟨.sha256, List.replicate 32 0⟩⟩) :=
  ⟨by decide,
   parseContentAddress_renderContentAddress_roundTrip.1 _ (by decide) (fun _ h => nomatch h)⟩

/-! ## Reference sets: PathReferences over StorePath -/

structure PathReferences where
  references : List StorePath
  hasSelfReference : Bool
deriving DecidableEq

/-- referencesPossiblyToSelf: view the references and the self flag as
one flat set. -/
def PathReferences.referencesPossiblyToSelf (self : StorePath) (pr : PathReferences) : List StorePath :=
  if pr.hasSelfReference then sortedInsertSP self pr.references else pr.references

/-- insertReferencePossiblyToSelf. -/
def PathReferences.insertReferencePossiblyToSelf (self r : StorePath) (pr : PathReferences) : PathReferences :=
  if r = self then { pr with hasSelfReference := true }
  else { pr with references := sortedInsertSP r pr.references }

/-- setReferencesPossiblyToSelf: split the self element back out of a
flat set.  The source's indentation makes refs.erase(self) look guarded
by the if, but it is unconditional; erasing an absent element is a
no-op, so both readings agree.  Note the self flag is only ever raised,
never cleared. -/
def PathReferences.setReferencesPossiblyToSelf (self : StorePath) (refs : List StorePath)
    (pr : PathReferences) : PathReferences :=
  { hasSelfReference := if self ∈ refs then true else pr.hasSelfReference,
    references := refs.filter (fun r => r ≠ self) }

theorem mem_sortedInsertSP (a : StorePath) (l : List StorePath) : a ∈ sortedInsertSP a l := by
  induction l with
  | nil => simp [sortedInsertSP]
  | cons b t ih =>
    by_cases hab : a = b
    · subst hab; simp [sortedInsertSP]
    · simp only [sortedInsertSP, if_neg hab]
      by_cases hlt : spToString a < spToString b
      · simp [hlt]
      · simp only [if_neg hlt, List.mem_cons]
        exact Or.inr ih

theorem filter_sortedInsertSP (a : StorePath) (l : List StorePath) :
    (sortedInsertSP a l).filter (fun r => r ≠ a) = l.filter (fun r => r ≠ a) := by
  induction l with
  | nil => simp [sortedInsertSP]
  | cons b t ih =>
    by_cases hab : a = b
    · subst hab; simp [sortedInsertSP]
    · simp only [sortedInsertSP, if_neg hab]
      by_cases hlt : spToString a < spToString b
      · simp [hlt, List.filter_cons]
      · simp only [if_neg hlt, List.filter_cons, ih]

theorem filter_ne_of_not_mem (a : StorePath) (l : List StorePath) (h : a ∉ l) :
    l.filter (fun r => r ≠ a) = l := by
  induction l with
  | nil => rfl
  | cons b t ih =>
    have hb : ¬(b = a) := fun hba => h (hba ▸ List.mem_cons_self _ _)
    have ht : a ∉ t := fun hm => h (List.mem_cons_of_mem _ hm)
    rw [List.filter_cons, if_pos (by simp [hb]), ih ht]

/-- C7 (amended): the self-reference round-trip
setReferencesPossiblyToSelf(self, referencesPossiblyToSelf(self)) == original
holds for every PathReferences value whose stored reference set does not
itself contain self (the representation invariant; the claim as stated
fails when self is materialised inside references). -/
theorem pathReferences_selfReference_roundTrip (self : StorePath) (pr : PathReferences)
    (h : self ∉ pr.references) :
    PathReferences.setReferencesPossiblyToSelf self
      (PathReferences.referencesPossiblyToSelf self pr) pr = pr := by
  obtain ⟨refs, flag⟩ := pr
  have h' : self ∉ refs := h
  cases flag with
  | true =>
    simp only [PathReferences.referencesPossiblyToSelf, PathReferences.setReferencesPossiblyToSelf,
      if_pos (mem_sortedInsertSP self refs), if_true]
    rw [filter_sortedInsertSP, filter_ne_of_not_mem _ _ h']
  | false =>
    simp only [PathReferences.referencesPossiblyToSelf, PathReferences.setReferencesPossiblyToSelf,
      if_false, Bool.false_eq_true, if_neg h']
    rw [filter_ne_of_not_mem _ _ h']

/-- C7 counterexample: when self is materialised inside the reference
set, the round-trip moves it into the flag and the original value is not
restored, refuting the claim's unconditional quantification. -/
theorem pathReferences_roundTrip_counterexample :
    PathReferences.setReferencesPossiblyToSelf ⟨"z", "a"⟩
      (PathReferences.referencesPossiblyToSelf ⟨"z", "a"⟩ ⟨[⟨"z", "a"⟩], false⟩)
      ⟨[⟨"z", "a"⟩], false⟩
      ≠ ⟨[⟨"z", "a"⟩], false⟩ := by
  decide

/-- C7 witness: the round-trip theorem applied to a concrete value with
a self-reference flag and one foreign reference. -/
theorem pathReferences_roundTrip_witness :
    (⟨"z", "a"⟩ : StorePath) ∉ [(⟨"b", "c"⟩ : StorePath)]
    ∧ PathReferences.setReferencesPossiblyToSelf ⟨"z", "a"⟩
        (PathReferences.referencesPossiblyToSelf ⟨"z", "a"⟩ ⟨[⟨"b", "c"⟩], true⟩)
        ⟨[⟨"b", "c"⟩], true⟩
        = ⟨[⟨"b", "c"⟩], true⟩ :=
  ⟨by decide, pathReferences_selfReference_roundTrip _ _ (by decide)⟩

/-! ## Derivations (derivations.cc) -/

structure DerivationOutput where
  path : Option StorePath
  hashAlgo : String
  hash : String
deriving DecidableEq

structure BasicDerivation where
  outputs : List (String × DerivationOutput)
  inputSrcs : List StorePath
  platform : String
  builder : String
  args : List String
  env : List (String × String)
deriving DecidableEq

structure Derivation extends BasicDerivation where
  inputDrvs : List (StorePath × List String)
deriving DecidableEq

inductive DerivationType
  | Regular
  | CAFixed
  | CAFloating
deriving DecidableEq

/-- The per-output invariant loop inside BasicDerivation::type, checking
against the first output's hashAlgo. -/
def typeCheckOutputs (algo : String) : List (String × DerivationOutput) → Except Err Unit
  | [] => .ok ()
  | (_, o) :: rest =>
    if o.hash ≠ "" then .error (.error "Non-fixed-output derivation has fixed output")
    else if o.hashAlgo ≠ algo then .error (.error "Invalid mix of CA and regular outputs")
    else if ((algo == "") == o.path.isSome) = true then
      .error (.error "Path must be blank if and only if floating CA drv")
    else typeCheckOutputs algo rest

/-- The part of BasicDerivation::type after the CAFixed early return.
Reading outputs.begin() of an empty map is undefined behaviour in the
source; it is modelled as an assertion failure. -/
def typeRest (outputs : List (String × DerivationOutput)) : Except Err DerivationType :=
  match outputs with
  | [] => .error .assertFail
  | (_, o) :: _ =>
    (typeCheckOutputs o.hashAlgo outputs).map
      (fun _ => if o.hashAlgo = "" then DerivationType.Regular else DerivationType.CAFloating)

/-- BasicDerivation::type. -/
def BasicDerivation.type (d : BasicDerivation) : Except Err DerivationType :=
  match d.outputs with
  | [(id, o)] =>
    if id = "out" ∧ o.hash ≠ "" ∧ o.path = none then .ok .CAFixed
    else typeRest d.outputs
  | _ => typeRest d.outputs

/-- printString: quote, escaping backslash, double quote, newline,
carriage return and tab. -/
def escapeChar (c : Char) : List Char :=
  if c = '\"' ∨ c = '\\' then ['\\', c]
  else if c = '\n' then ['\\', 'n']
  else if c = '\r' then ['\\', 'r']
  else if c = '\t' then ['\\', 't']
  else [c]

def printString (s : String) : String :=
  String.mk ('\"' :: s.data.foldr (fun c acc => escapeChar c ++ acc) ['\"'])

/-- printUnquotedString: quote without escaping. -/
def printUnquotedString (s : String) : String :=
  "\"" ++ s ++ "\""

def printUnquotedStrings (l : List String) : String :=
  "[" ++ concatStringsSep "," (l.map printUnquotedString) ++ "]"

def printStrings (l : List String) : String :=
  "[" ++ concatStringsSep "," (l.map printString) ++ "]"

/-- Derivation::unparse.  In the output-path field the source evaluates
(path || maskOutputs ? "" : printStorePath(*path)); its else branch
dereferences an empty optional, which is undefined behaviour, modelled
by printing the undefinedStorePath stand-in. -/
def Derivation.unparse (store : Store) (d : Derivation) (maskOutputs : Bool)
    (actualInputs : Option (List (String × List String))) : String :=
  let outStr := concatStringsSep "," (d.outputs.map (fun io =>
    "(" ++ printUnquotedString io.1
    ++ "," ++ printUnquotedString (if io.2.path.isSome || maskOutputs then ""
        else printStorePath store (io.2.path.getD undefinedStorePath))
    ++ "," ++ printUnquotedString io.2.hashAlgo
    ++ "," ++ printUnquotedString io.2.hash ++ ")"))
  let inputsStr := match actualInputs with
    | some inputs2 => concatStringsSep "," (inputs2.map (fun i =>
        "(" ++ printUnquotedString i.1 ++ "," ++ printUnquotedStrings i.2 ++ ")"))
    | none => concatStringsSep "," (d.inputDrvs.map (fun i =>
        "(" ++ printUnquotedString (printStorePath store i.1)
        ++ "," ++ printUnquotedStrings i.2 ++ ")"))
  "Derive([" ++ outStr ++ "],[" ++ inputsStr ++ "],"
  ++ printUnquotedStrings (printStorePathSet store d.inputSrcs)
  ++ "," ++ printUnquotedString d.platform
  ++ "," ++ printString d.builder
  ++ "," ++ printStrings d.args
  ++ ",[" ++ concatStringsSep "," (d.env.map (fun kv =>
        "(" ++ printString kv.1 ++ ","
        ++ printString (if maskOutputs && (lookupStr d.outputs kv.1).isSome then "" else kv.2)
        ++ ")"))
  ++ "])"

/-- DrvHashModulo: either one hash (regular derivations) or a map from
output id to hash (fixed-output derivations). -/
inductive DrvHashModulo
  | hash (h : Hash)
  | outputHashes (m : List (String × Hash))
deriving DecidableEq

/-- The inner loop of the Regular branch over one fixed-output input's
output subset; map::at throws when an output id has no hash. -/
def outputSubsetLoop (m : List (String × Hash)) :
    List String → List (String × List String) → Except Err (List (String × List String))
  | [], acc => .ok acc
  | oid :: rest, acc =>
    match lookupStr m oid with
    | some h => outputSubsetLoop m rest (insertOrAssignStr (hashToString h .base16 false) ["out"] acc)
    | none => .error .outOfRange

/-- The inputs2 accumulation loop of the Regular branch; the memoised
pathDerivationModulo store lookups are abstracted as the oracle. -/
def inputs2Loop (oracle : StorePath → DrvHashModulo) :
    List (StorePath × List String) → List (String × List String)
    → Except Err (List (String × List String))
  | [], acc => .ok acc
  | (drvPath, outputSubset) :: rest, acc =>
    match oracle drvPath with
    | .hash h =>
      inputs2Loop oracle rest (insertOrAssignStr (hashToString h .base16 false) outputSubset acc)
    | .outputHashes m =>
      match outputSubsetLoop m outputSubset acc with
      | .ok acc2 => inputs2Loop oracle rest acc2
      | .error e => .error e

/-- hashDerivationModulo.  The mutually recursive pathDerivationModulo
(a process-wide memo table whose misses reread the input derivation from
the store) is abstracted as an oracle assigning every input derivation
path its hash-modulo value.  In the CAFixed branch the source passes the
optional output path straight to printStorePath; the absent case is
modelled with the undefinedStorePath stand-in. -/
def hashDerivationModulo (store : Store) (oracle : StorePath → DrvHashModulo)
    (drv : Derivation) (maskOutputs : Bool) : Except Err DrvHashModulo :=
  match BasicDerivation.type drv.toBasicDerivation with
  | .error e => .error e
  | .ok .CAFixed =>
    .ok (.outputHashes (drv.outputs.map (fun io =>
      (io.1, hashStringSHA256 ("fixed:out:" ++ io.2.hashAlgo ++ ":" ++ io.2.hash ++ ":"
        ++ printStorePath store (io.2.path.getD undefinedStorePath))))))
  | .ok .CAFloating => .error (.error "Floating CA derivations are unimplemented")
  | .ok .Regular =>
    match inputs2Loop oracle drv.inputDrvs [] with
    | .ok inputs2 =>
      .ok (.hash (hashStringSHA256 (Derivation.unparse store drv maskOutputs (some inputs2))))
    | .error e => .error e

/-- The claim's formulation of inputs2: replace each inputDrvs entry
(drvPath → outputSubset) in order; a single hash h of the input
derivation gives an entry (hex(h) → outputSubset); a per-output map m
gives, for each oid of the subset, an entry (hex(m[oid]) → set with only
"out"). -/
def inputs2Spec (oracle : StorePath → DrvHashModulo)
    (inputDrvs : List (StorePath × List String)) : Except Err (List (String × List String)) :=
  inputDrvs.foldlM (fun acc i =>
    match oracle i.1 with
    | .hash h => .ok (insertOrAssignStr (hashToString h .base16 false) i.2 acc)
    | .outputHashes m =>
      i.2.foldlM (fun acc2 oid =>
        match lookupStr m oid with
        | some hh => .ok (insertOrAssignStr (hashToString hh .base16 false) ["out"] acc2)
        | none => .error .outOfRange) acc) []

theorem outputSubsetLoop_eq_foldlM (m : List (String × Hash)) (l : List String) :
    ∀ acc, outputSubsetLoop m l acc
      = l.foldlM (fun acc2 oid =>
          match lookupStr m oid with
          | some hh =>
            Except.ok (insertOrAssignStr (hashToString hh .base16 false) ["out"] acc2)
          | none => Except.error Err.outOfRange) acc := by
  induction l with
  | nil => intro acc; rfl
  | cons oid rest ih =>
    intro acc
    simp only [outputSubsetLoop, List.foldlM]
    cases lookupStr m oid with
    | some h => simp only [ih]; rfl
    | none => rfl

theorem inputs2Loop_eq_inputs2Spec (oracle : StorePath → DrvHashModulo)
    (l : List (StorePath × List String)) :
    ∀ acc, inputs2Loop oracle l acc
      = l.foldlM (fun acc i =>
          match oracle i.1 with
          | .hash h => Except.ok (insertOrAssignStr (hashToString h .base16 false) i.2 acc)
          | .outputHashes m =>
            i.2.foldlM (fun acc2 oid =>
              match lookupStr m oid with
              | some hh =>
                Except.ok (insertOrAssignStr (hashToString hh .base16 false) ["out"] acc2)
              | none => Except.error Err.outOfRange) acc) acc := by
  induction l with
  | nil => intro acc; rfl
  | cons i rest ih =>
    intro acc
    simp only [inputs2Loop, List.foldlM]
    cases horacle : oracle i.1 with
    | hash h => simp only [ih]; rfl
    | outputHashes m =>
      have hsub := outputSubsetLoop_eq_foldlM m i.2 acc
      simp only [← hsub]
      cases outputSubsetLoop m i.2 acc with
      | ok acc2 => simp only [ih]; rfl
      | error e => rfl

/-- C1: for a derivation whose computed type is Regular,
hashDerivationModulo with maskOutputs = false returns the SHA-256 of
unparse invoked with maskOutputs = false and actualInputs = inputs2,
where inputs2 substitutes the hash-modulo of each input derivation as
the claim describes (single hash → same output subset; per-output map →
one entry per subset member, carrying only "out"). -/
theorem hashDerivationModulo_regular (store : Store) (oracle : StorePath → DrvHashModulo)
    (d : Derivation) (inp2 : List (String × List String))
    (htype : BasicDerivation.type d.toBasicDerivation = .ok .Regular)
    (hinp : inputs2Spec oracle d.inputDrvs = .ok inp2) :
    hashDerivationModulo store oracle d false
      = .ok (.hash (hashStringSHA256 (Derivation.unparse store d false (some inp2)))) := by
  have hloop : inputs2Loop oracle d.inputDrvs [] = .ok inp2 := by
    rw [inputs2Loop_eq_inputs2Spec]
    exact hinp
  simp only [hashDerivationModulo, htype, hloop]

/-- A concrete store for witnesses. -/
def wStore : Store := ⟨"/nix/store"⟩

/-- A concrete regular derivation (its type computes to Regular) with
one fixed-output input derivation. -/
def c1drv : Derivation :=
  { outputs := [("out", ⟨none, "", ""⟩)],
    inputSrcs := [],
    platform := "x86_64-linux",
    builder := "/bin/sh",
    args := ["-e", "builder.sh"],
    env := [("out", "unset")],
    inputDrvs := [(⟨"00000000000000000000000000000000", "dep.drv"⟩, ["out"])] }

/-- A concrete hash-modulo oracle mapping every path to a per-output
map with a single "out" hash. -/
def c1oracle : StorePath → DrvHashModulo :=
  fun _ => .outputHashes [("out", ⟨.sha256, List.replicate 32 17⟩)]

/-- The inputs2 map the oracle induces for c1drv. -/
def c1inp2 : List (String × List String) :=
  [(hashToString ⟨.sha256, List.replicate 32 17⟩ .base16 false, ["out"])]

/-- C1 witness: the theorem applied to the concrete regular derivation. -/
theorem hashDerivationModulo_regular_witness :
    BasicDerivation.type c1drv.toBasicDerivation = .ok .Regular
    ∧ inputs2Spec c1oracle c1drv.inputDrvs = .ok c1inp2
    ∧ hashDerivationModulo wStore c1oracle c1drv false
        = .ok (.hash (hashStringSHA256 (Derivation.unparse wStore c1drv false (some c1inp2)))) :=
  ⟨by decide, by decide,
   hashDerivationModulo_regular wStore c1oracle c1drv c1inp2 (by decide) (by decide)⟩

/-- A derivation every claim reader would call Regular: one output
"out" with empty hash, empty hashAlgo and a present path. -/
def c2drv : BasicDerivation :=
  { outputs := [("out", ⟨some ⟨"00000000000000000000000000000000", "foo"⟩, "", ""⟩)],
    inputSrcs := [],
    platform := "x86_64-linux",
    builder := "/bin/sh",
    args := [],
    env := [] }

/-- C2: the computed-kind invariant check is inverted in the source.
Every output of c2drv has empty hash, empty hashAlgo and a present path
(the claim's Regular criterion), yet BasicDerivation::type throws "Path
must be blank if and only if floating CA drv" instead of returning
Regular: the error message itself states the invariant the input
satisfies. -/
theorem basicDerivationType_inverted_check :
    (∀ io ∈ c2drv.outputs, io.2.hash = "" ∧ io.2.hashAlgo = "" ∧ io.2.path.isSome = true)
    ∧ BasicDerivation.type c2drv
        = .error (.error "Path must be blank if and only if floating CA drv") := by
  decide

/-! ## Store path synthesis (store-api.cc) -/

/-- Store::makeStorePath: fingerprint string, SHA-256, XOR-compression
to 20 bytes, base-32 hash part. -/
def makeStorePath (store : Store) (type : String) (hash : Hash) (name : String) : StorePath :=
  let s := type ++ ":" ++ hashToString hash .base16 true ++ ":" ++ store.storeDir ++ ":" ++ name
  storePathOfHash (compressHash (sha256Bytes (strBytes s)) 20) name

/-- Store::makeOutputPath. -/
def makeOutputPath (store : Store) (id : String) (hash : Hash) (name : String) : StorePath :=
  makeStorePath store ("output:" ++ id) hash (name ++ (if id = "out" then "" else "-" ++ id))

/-- makeType: stuff the references (and the self marker) into the type. -/
def makeType (store : Store) (type : String) (references : PathReferences) : String :=
  (references.references.foldl (fun t r => t ++ ":" ++ printStorePath store r) type)
  ++ (if references.hasSelfReference then ":self" else "")

/-! ## Content addresses with references (the store-api generation) -/

structure TextInfo where
  hash : Hash
  references : List StorePath
deriving DecidableEq

structure FixedOutputInfo where
  method : FileIngestionMethod
  hash : Hash
  references : PathReferences
deriving DecidableEq

structure IPFSHash where
  hash : Hash
deriving DecidableEq

structure IPFSRef where
  name : String
  hash : IPFSHash
deriving DecidableEq

structure PathReferencesIPFS where
  references : List IPFSRef
  hasSelfReference : Bool
deriving DecidableEq

structure IPFSInfo where
  hash : Hash
  references : PathReferencesIPFS
deriving DecidableEq

inductive ContentAddressWithReferences
  | textInfo (ti : TextInfo)
  | fixedOutputInfo (foi : FixedOutputInfo)
  | ipfsInfo (ii : IPFSInfo)
  | ipfsHash (ih : IPFSHash)
deriving DecidableEq

/-- The full named content address: struct ContentAddress {name, info}
in store-api.cc, StorePathDescriptor in the header generation. -/
structure StorePathDescriptor where
  name : String
  info : ContentAddressWithReferences
deriving DecidableEq

/-- Store::makeFixedOutputPath.  Assertion failures model the C++
assert calls on the reference set. -/
def makeFixedOutputPath (store : Store) (name : String) (info : FixedOutputInfo) :
    Except Err StorePath :=
  if info.method = .Git ∧ info.hash.type ≠ .sha1 then
    .error (.error "Git file ingestion must use sha1 hash")
  else if info.hash.type = .sha256 ∧ info.method = .Recursive then
    .ok (makeStorePath store (makeType store "source" info.references) info.hash name)
  else if info.references.references.length ≠ 0 then .error .assertFail
  else if info.references.hasSelfReference then .error .assertFail
  else
    .ok (makeStorePath store "output:out"
      (hashStringSHA256 ("fixed:out:" ++ makeFileIngestionPrefixString info.method
        ++ hashToString info.hash .base16 true ++ ":"))
      name)

/-- Store::makeTextPath; the assert on the hash type becomes an
assertion failure. -/
def makeTextPath (store : Store) (name : String) (info : TextInfo) : Except Err StorePath :=
  if info.hash.type ≠ .sha256 then .error .assertFail
  else .ok (makeStorePath store (makeType store "text" ⟨info.references, false⟩) info.hash name)

/-- Store::makeIPFSPath: the CID form of the hash replaces the bare
fingerprint hash; the rest mirrors makeStorePath. -/
def makeIPFSPath (store : Store) (name : String) (hash : IPFSHash) : Except Err StorePath :=
  if hash.hash.type ≠ .sha256 then .error .assertFail
  else
    let cid := "f01711220" ++ hashToString hash.hash .base16 false
    let s := "ipfs" ++ ":" ++ cid ++ ":" ++ store.storeDir ++ ":" ++ name
    .ok (storePathOfHash (compressHash (sha256Bytes (strBytes s)) 20) name)

/-- packMultihash for the CIDs the code builds ("f01711220" + hex):
multibase 0x00 then the four header octets then the digest. -/
def packMultihash (h : Hash) : List Nat :=
  [0x00, 0x01, 0x71, 0x12, 0x20] ++ h.digest

/-- Modelled from the spec: CBOR primitives for the canonical peer
registration object (the JSON/CBOR library is outside the embedded
tree): texts, byte strings, arrays, maps with sorted keys, bools and
tag 42 around packed CIDs. -/
def cborText (s : String) : List Nat :=
  let bs := strBytes s
  (if bs.length < 24 then [0x60 + bs.length] else [0x78, bs.length]) ++ bs

def cborBytes (bs : List Nat) : List Nat :=
  (if bs.length < 24 then [0x40 + bs.length] else [0x58, bs.length]) ++ bs

def cborArrayHead (n : Nat) : List Nat :=
  if n < 24 then [0x80 + n] else [0x98, n]

def cborMapHead (n : Nat) : List Nat := [0xa0 + n]

def cborBool (b : Bool) : List Nat := [if b then 0xf5 else 0xf4]

def cborTag42 : List Nat := [0xd8, 42]

/-- One reference of a peer registration object, keys sorted. -/
def ipfsRefCbor (r : IPFSRef) : List Nat :=
  cborMapHead 2
  ++ cborText "cid" ++ cborTag42 ++ cborBytes (packMultihash r.hash.hash)
  ++ cborText "name" ++ cborText r.name

/-- Modelled from the spec: computeIPFSHash emits the object with keys
sorted and binary CIDs packed and tagged 42, then hashes the canonical
CBOR with SHA-256. -/
def computeIPFSHash (name : String) (info : IPFSInfo) : IPFSHash :=
  let cbor :=
    cborMapHead 3
    ++ cborText "cid" ++ cborTag42 ++ cborBytes (packMultihash info.hash)
    ++ cborText "name" ++ cborText name
    ++ cborText "references"
    ++ (cborMapHead 2
        ++ cborText "hasSelfReference" ++ cborBool info.references.hasSelfReference
        ++ cborText "references"
        ++ cborArrayHead info.references.references.length
        ++ (info.references.references.map ipfsRefCbor).flatten)
  ⟨⟨.sha256, sha256Bytes cbor⟩⟩

/-- Store::makeFixedOutputPathFromCA. -/
def makeFixedOutputPathFromCA (store : Store) (desc : StorePathDescriptor) :
    Except Err StorePath :=
  match desc.info with
  | .textInfo ti => makeTextPath store desc.name ti
  | .fixedOutputInfo foi => makeFixedOutputPath store desc.name foi
  | .ipfsInfo ii => makeIPFSPath store desc.name (computeIPFSHash desc.name ii)
  | .ipfsHash ih => makeIPFSPath store desc.name ih

/-- The claim's formula for a fixed-output path without references:
bare hex digests without the algo prefixes. -/
def c3ClaimPath (store : Store) (name : String) (info : FixedOutputInfo) : StorePath :=
  let h2 := hashStringSHA256 ("fixed:out:" ++ makeFileIngestionPrefixString info.method
    ++ hexEncodeStr info.hash.digest ++ ":")
  let s := "output:out" ++ ":" ++ hexEncodeStr h2.digest ++ ":" ++ store.storeDir ++ ":" ++ name
  storePathOfHash (compressHash (sha256Bytes (strBytes s)) 20) name

/-- C3 counterexample: at a concrete flat SHA-256 fixed output the
synthesized path differs from the claim's formula, because the source
renders both hashes with their algo prefix ("sha256:" + hex) in the
fingerprint strings while the claim uses bare hex. -/
theorem makeFixedOutputPath_claim_counterexample :
    makeFixedOutputPath wStore "tarball.tgz"
      ⟨.Flat, ⟨.sha256, List.replicate 32 0⟩, ⟨[], false⟩⟩
      ≠ .ok (c3ClaimPath wStore "tarball.tgz"
          ⟨.Flat, ⟨.sha256, List.replicate 32 0⟩, ⟨[], false⟩⟩) := by
  decide

/-- C3 (amended): for a reference-free fixed-output description whose
method/hash pair is neither (Recursive, SHA-256) nor an ill-typed Git
request, the synthesized path comes from the fingerprint
s = "output:out" + ":" + "sha256:" + hex(h2) + ":" + storeDir + ":" + name
with h2 = SHA256("fixed:out:" + ingestionPrefix + algoName + ":" +
hex(contentHash) + ":"), hashed with SHA-256, XOR-compressed to 20
bytes, base-32 encoded. -/
theorem makeFixedOutputPath_noRefs (store : Store) (name : String) (info : FixedOutputInfo)
    (hrefs : info.references.references = [])
    (hself : info.references.hasSelfReference = false)
    (hnotsrc : ¬(info.hash.type = .sha256 ∧ info.method = .Recursive))
    (hgit : ¬(info.method = .Git ∧ info.hash.type ≠ .sha1)) :
    makeFixedOutputPath store name info
      = .ok (let h2 := hashStringSHA256 ("fixed:out:"
               ++ makeFileIngestionPrefixString info.method
               ++ (printHashType info.hash.type ++ ":" ++ hexEncodeStr info.hash.digest) ++ ":")
             storePathOfHash (compressHash (sha256Bytes (strBytes
               ("output:out" ++ ":" ++ ("sha256:" ++ hexEncodeStr h2.digest) ++ ":"
                ++ store.storeDir ++ ":" ++ name))) 20) name) := by
  have hlen : ¬(info.references.references.length ≠ 0) := by rw [hrefs]; simp
  have hself' : ¬(info.references.hasSelfReference = true) := by rw [hself]; simp
  simp only [makeFixedOutputPath, if_neg hgit, if_neg hnotsrc, if_neg hlen, if_neg hself']
  rfl

/-- C3 witness: the amended theorem applied to a concrete flat
SHA-256 fixed output. -/
theorem makeFixedOutputPath_noRefs_witness :
    makeFixedOutputPath wStore "tarball.tgz"
      ⟨.Flat, ⟨.sha256, List.replicate 32 0⟩, ⟨[], false⟩⟩
      = .ok (let h2 := hashStringSHA256 ("fixed:out:" ++ makeFileIngestionPrefixString .Flat
               ++ (printHashType HashType.sha256
                   ++ ":" ++ hexEncodeStr (List.replicate 32 0)) ++ ":")
             storePathOfHash (compressHash (sha256Bytes (strBytes
               ("output:out" ++ ":" ++ ("sha256:" ++ hexEncodeStr h2.digest) ++ ":"
                ++ wStore.storeDir ++ ":" ++ "tarball.tgz"))) 20) "tarball.tgz") :=
  makeFixedOutputPath_noRefs wStore "tarball.tgz" _ rfl rfl (by decide) (by decide)

/-- C9: makeFixedOutputPath only tolerates references (or a
self-reference) in the (Recursive, SHA-256) branch.  When the
description carries no references and no self-reference the assertion
branch is unreachable; when it carries either and the method/hash pair
is any other combination that survives the Git type check, the call
ends in an assertion failure. -/
theorem makeFixedOutputPath_references_assertion (store : Store) (name : String)
    (info : FixedOutputInfo) :
    (info.references.references = [] → info.references.hasSelfReference = false →
      makeFixedOutputPath store name info ≠ .error .assertFail)
    ∧ ((info.references.references ≠ [] ∨ info.references.hasSelfReference = true) →
      ¬(info.hash.type = .sha256 ∧ info.method = .Recursive) →
      ¬(info.method = .Git ∧ info.hash.type ≠ .sha1) →
      makeFixedOutputPath store name info = .error .assertFail) := by
  refine ⟨?_, ?_⟩
  · intro h1 h2
    unfold makeFixedOutputPath
    split_ifs with hg hs hl hf
    · simp
    · simp
    · rw [h1] at hl; simp at hl
    · rw [h2] at hf; simp at hf
    · simp
  · intro h hns hng
    unfold makeFixedOutputPath
    split_ifs with hl hf
    · rfl
    · rfl
    · cases h with
      | inl hne => exact absurd (List.length_eq_zero.mp (by omega)) hne
      | inr hsl => exact absurd hsl hf

/-- C9 witness: the theorem's two halves at concrete inputs — a
reference-free flat output never hits the asserts, and a flat output
carrying one reference fails the assertion. -/
theorem makeFixedOutputPath_references_assertion_witness :
    makeFixedOutputPath wStore "a" ⟨.Flat, ⟨.sha256, List.replicate 32 0⟩, ⟨[], false⟩⟩
      ≠ .error .assertFail
    ∧ makeFixedOutputPath wStore "a"
        ⟨.Flat, ⟨.sha256, List.replicate 32 0⟩, ⟨[⟨"h", "q"⟩], false⟩⟩
        = .error .assertFail :=
  ⟨(makeFixedOutputPath_references_assertion wStore "a" _).1 rfl rfl,
   (makeFixedOutputPath_references_assertion wStore "a" _).2 (Or.inl (by decide))
     (by decide) (by decide)⟩

/-- C10: a Git-method request with a hash type other than SHA-1 throws
"Git file ingestion must use sha1 hash" before any path is synthesized,
and a Git-method path is only produced from a SHA-1 content hash. -/
theorem makeFixedOutputPath_git_requires_sha1 (store : Store) (name : String)
    (info : FixedOutputInfo) :
    (info.method = .Git → info.hash.type ≠ .sha1 →
      makeFixedOutputPath store name info
        = .error (.error "Git file ingestion must use sha1 hash"))
    ∧ (∀ p, info.method = .Git → makeFixedOutputPath store name info = .ok p →
      info.hash.type = .sha1) := by
  refine ⟨?_, ?_⟩
  · intro hm ht
    unfold makeFixedOutputPath
    rw [if_pos ⟨hm, ht⟩]
  · intro p hm hok
    by_cases ht : info.hash.type = .sha1
    · exact ht
    · unfold makeFixedOutputPath at hok
      rw [if_pos ⟨hm, ht⟩] at hok
      exact nomatch hok

/-- C10 witness: the theorem applied to a Git request with a SHA-256
hash. -/
theorem makeFixedOutputPath_git_requires_sha1_witness :
    makeFixedOutputPath wStore "a" ⟨.Git, ⟨.sha256, List.replicate 32 0⟩, ⟨[], false⟩⟩
      = .error (.error "Git file ingestion must use sha1 hash") :=
  (makeFixedOutputPath_git_requires_sha1 wStore "a" _).1 rfl (by decide)

/-! ## ValidPathInfo (store-api.cc) -/

/-- FixedOutputHash of the later header generation: the same struct as
FileSystemHash. -/
abbrev FixedOutputHash := FileSystemHash

/-- LegacyContentAddress: the mini content address stored in the ca
field of a ValidPathInfo. -/
inductive LegacyContentAddress
  | textHash (th : TextHash)
  | fixedOutputHash (foh : FixedOutputHash)
  | ipfsHash (ih : IPFSHash)
deriving DecidableEq

structure ValidPathInfo where
  path : StorePath
  deriver : Option StorePath
  narHash : Option Hash
  narSize : Nat
  references : List StorePath
  hasSelfReference : Bool
  registrationTime : Int
  ultimate : Bool
  sigs : List String
  ca : Option LegacyContentAddress
deriving DecidableEq

/-- ValidPathInfo::referencesPossiblyToSelf, with the info's own path
as self. -/
def ValidPathInfo.referencesPossiblyToSelf (info : ValidPathInfo) : List StorePath :=
  PathReferences.referencesPossiblyToSelf info.path ⟨info.references, info.hasSelfReference⟩

/-- ValidPathInfo::fingerprint.  The source throws when narSize is zero
or narHash is absent; the two tests are folded into the same error. -/
def ValidPathInfo.fingerprint (store : Store) (info : ValidPathInfo) : Except Err String :=
  match info.narHash with
  | none =>
    .error (.error ("cannot calculate fingerprint of path '" ++ printStorePath store info.path
      ++ "' because its size/hash is not known"))
  | some h =>
    if info.narSize = 0 then
      .error (.error ("cannot calculate fingerprint of path '" ++ printStorePath store info.path
        ++ "' because its size/hash is not known"))
    else
      .ok ("1;" ++ printStorePath store info.path ++ ";"
        ++ hashToString h .base32 true ++ ";"
        ++ toString info.narSize ++ ";"
        ++ concatStringsSep "," (printStorePathSet store
             (ValidPathInfo.referencesPossiblyToSelf info)))

/-- ValidPathInfo::fullContentAddressOpt.  The TextHash branch asserts
that no self reference is present. -/
def ValidPathInfo.fullContentAddressOpt (info : ValidPathInfo) :
    Except Err (Option StorePathDescriptor) :=
  match info.ca with
  | none => .ok none
  | some (.textHash th) =>
    if info.hasSelfReference then .error .assertFail
    else .ok (some ⟨info.path.name, .textInfo ⟨th.hash, info.references⟩⟩)
  | some (.fixedOutputHash foh) =>
    .ok (some ⟨info.path.name,
      .fixedOutputInfo ⟨foh.method, foh.hash, ⟨info.references, info.hasSelfReference⟩⟩⟩)
  | some (.ipfsHash ih) => .ok (some ⟨info.path.name, .ipfsHash ih⟩)

/-- ValidPathInfo::isContentAddressed: recompute the path from the full
content address and compare (the warning print on mismatch has no
bearing on the result). -/
def ValidPathInfo.isContentAddressed (store : Store) (info : ValidPathInfo) : Except Err Bool :=
  match ValidPathInfo.fullContentAddressOpt info with
  | .error e => .error e
  | .ok none => .ok false
  | .ok (some fca) =>
    match makeFixedOutputPathFromCA store fca with
    | .error e => .error e
    | .ok caPath => .ok (caPath == info.path)

/-- maxSigs = numeric_limits<size_t>::max(); the header carrying it is
outside the embedded tree. -/
def maxSigs : Nat := 18446744073709551615

/-- Trusted public keys, opaque to the embedded logic. -/
def PublicKeys : Type := List (String × String)

/-- ValidPathInfo::checkSignature.  verifyDetached is the external
signed-message primitive, passed as a parameter. -/
def ValidPathInfo.checkSignature (verifyDetached : String → String → PublicKeys → Bool)
    (store : Store) (publicKeys : PublicKeys) (info : ValidPathInfo) (sig : String) :
    Except Err Bool :=
  match ValidPathInfo.fingerprint store info with
  | .ok fp => .ok (verifyDetached fp sig publicKeys)
  | .error e => .error e

/-- The good-signature counting loop of checkSignatures. -/
def countGoodSigs (check : String → Except Err Bool) : List String → Nat → Except Err Nat
  | [], good => .ok good
  | sig :: rest, good =>
    match check sig with
    | .ok true => countGoodSigs check rest (good + 1)
    | .ok false => countGoodSigs check rest good
    | .error e => .error e

/-- ValidPathInfo::checkSignatures: content-addressed paths are accepted
with the maximal signature count; otherwise the good signatures are
counted. -/
def ValidPathInfo.checkSignatures (verifyDetached : String → String → PublicKeys → Bool)
    (store : Store) (publicKeys : PublicKeys) (info : ValidPathInfo) : Except Err Nat :=
  match ValidPathInfo.isContentAddressed store info with
  | .error e => .error e
  | .ok true => .ok maxSigs
  | .ok false =>
    countGoodSigs (ValidPathInfo.checkSignature verifyDetached store publicKeys info) info.sigs 0

theorem fullContentAddressOpt_some_ca (info : ValidPathInfo) (fca : StorePathDescriptor)
    (h : ValidPathInfo.fullContentAddressOpt info = .ok (some fca)) : info.ca.isSome = true := by
  cases hca : info.ca with
  | none =>
    unfold ValidPathInfo.fullContentAddressOpt at h
    rw [hca] at h
    exact nomatch h
  | some lca => rfl

/-- C5: isContentAddressed succeeds with true exactly when the info has
a content address whose recomputed store path (via
makeFixedOutputPathFromCA of the full content address) equals the
info's own path, and in that case checkSignatures returns the maximal
signature count whatever the verification primitive, the trusted keys
and the carried signatures are. -/
theorem validPathInfo_selfAuthenticating (store : Store) (info : ValidPathInfo) :
    (ValidPathInfo.isContentAddressed store info = .ok true
      ↔ ∃ fca, info.ca.isSome = true
          ∧ ValidPathInfo.fullContentAddressOpt info = .ok (some fca)
          ∧ makeFixedOutputPathFromCA store fca = .ok info.path)
    ∧ (ValidPathInfo.isContentAddressed store info = .ok true →
      ∀ verifyDetached publicKeys,
        ValidPathInfo.checkSignatures verifyDetached store publicKeys info = .ok maxSigs) := by
  refine ⟨⟨?_, ?_⟩, ?_⟩
  · intro h
    unfold ValidPathInfo.isContentAddressed at h
    cases hfull : ValidPathInfo.fullContentAddressOpt info with
    | error e => simp only [hfull] at h; exact nomatch h
    | ok o =>
      simp only [hfull] at h
      cases o with
      | none => simp at h
      | some fca =>
        cases hmk : makeFixedOutputPathFromCA store fca with
        | error e => simp only [hmk] at h; exact nomatch h
        | ok caPath =>
          simp only [hmk, Except.ok.injEq, beq_iff_eq] at h
          exact ⟨fca, fullContentAddressOpt_some_ca info fca hfull, rfl, by rw [hmk, h]⟩
  · rintro ⟨fca, _, hfull, hmk⟩
    unfold ValidPathInfo.isContentAddressed
    simp only [hfull, hmk]
    simp
  · intro h verifyDetached publicKeys
    unfold ValidPathInfo.checkSignatures
    rw [h]

/-- A concrete self-authenticating ValidPathInfo: its path is the
recomputed path of its own content address. -/
def c5desc : StorePathDescriptor :=
  ⟨"foo", .fixedOutputInfo ⟨.Recursive, ⟨.sha256, List.replicate 32 0⟩, ⟨[], false⟩⟩⟩

def c5path : StorePath :=
  match makeFixedOutputPathFromCA wStore c5desc with
  | .ok p => p
  | .error _ => undefinedStorePath

def c5info : ValidPathInfo :=
  { path := c5path,
    deriver := none,
    narHash := some ⟨.sha256, List.replicate 32 0⟩,
    narSize := 1,
    references := [],
    hasSelfReference := false,
    registrationTime := 0,
    ultimate := false,
    sigs := ["unknownkey:bogus"],
    ca := some (.fixedOutputHash ⟨.Recursive, ⟨.sha256, List.replicate 32 0⟩⟩) }

/-- C5 witness: the concrete self-authenticating info is accepted with
the maximal signature count by a verifier that rejects everything. -/
theorem validPathInfo_selfAuthenticating_witness :
    ValidPathInfo.isContentAddressed wStore c5info = .ok true
    ∧ ValidPathInfo.checkSignatures (fun _ _ _ => false) wStore [] c5info = .ok maxSigs :=
  ⟨by decide, (validPathInfo_selfAuthenticating wStore c5info).2 (by decide) (fun _ _ _ => false) []⟩

theorem strExt (a b : String) (h : a.data = b.data) : a = b := by
  cases a
  cases b
  exact congrArg String.mk h

/-- C6: for a path info carrying a SHA-256 narHash and a non-zero
narSize, the fingerprint is exactly "1;" + path + ";sha256:" +
base32(narHash) + ";" + narSize + ";" + the comma-joined sorted set of
full paths of the references including a possible self reference. -/
theorem validPathInfo_fingerprint (store : Store) (info : ValidPathInfo) (h : Hash)
    (hn : info.narHash = some h) (ht : h.type = .sha256) (hs : info.narSize ≠ 0) :
    ValidPathInfo.fingerprint store info
      = .ok ("1;" ++ printStorePath store info.path
        ++ ";sha256:" ++ base32EncodeStr h.digest
        ++ ";" ++ toString info.narSize ++ ";"
        ++ String.intercalate ","
             (stringSetOf ((PathReferences.referencesPossiblyToSelf info.path
               ⟨info.references, info.hasSelfReference⟩).map (printStorePath store)))) := by
  unfold ValidPathInfo.fingerprint
  simp only [hn]
  rw [if_neg hs]
  congr 1
  apply strExt
  have hhts : hashToString h .base32 true = "sha256" ++ ":" ++ base32EncodeStr h.digest := by
    unfold hashToString
    rw [ht]
    rfl
  rw [hhts]
  simp only [strData_append, List.append_assoc]
  rfl

/-- The S5-shaped concrete path info. -/
def c6info : ValidPathInfo :=
  { path := ⟨"xxx", "foo"⟩,
    deriver := none,
    narHash := some ⟨.sha256, List.replicate 32 0⟩,
    narSize := 42,
    references := [⟨"a", "x"⟩, ⟨"b", "y"⟩],
    hasSelfReference := false,
    registrationTime := 0,
    ultimate := false,
    sigs := [],
    ca := none }

/-- C6 witness: the fingerprint theorem applied to the S5-shaped
concrete info. -/
theorem validPathInfo_fingerprint_witness :
    c6info.narHash = some ⟨.sha256, List.replicate 32 0⟩
    ∧ ValidPathInfo.fingerprint wStore c6info
      = .ok ("1;" ++ printStorePath wStore c6info.path
        ++ ";sha256:" ++ base32EncodeStr (List.replicate 32 0)
        ++ ";" ++ toString c6info.narSize ++ ";"
        ++ String.intercalate ","
             (stringSetOf ((PathReferences.referencesPossiblyToSelf c6info.path
               ⟨c6info.references, c6info.hasSelfReference⟩).map (printStorePath wStore)))) := by
  refine ⟨rfl, ?_⟩
  exact validPathInfo_fingerprint wStore c6info ⟨.sha256, List.replicate 32 0⟩ rfl rfl (by decide)

/-! ## Closure copy: the paths map of copyPaths -/

/-- The two store endpoints of copyPaths, reduced to the operations the
path-map logic consumes: destination validity (queryValidPaths /
isValidPath) and source path info (queryPathInfo). -/
structure StoreHandle where
  store : Store
  isValidPath : StorePath → Bool
  queryPathInfo : StorePath → ValidPathInfo

/-- The per-path destination rewrite of copyPaths: when the source info
carries a content address and has neither references nor a self
reference, the destination's canonical path is recomputed from the full
content address.  Dereferencing fullContentAddressOpt's empty optional
(unreachable when ca is set) is undefined behaviour, modelled as an
assertion failure. -/
def storePathForDst (src dst : StoreHandle) (p : StorePath) : Except Err StorePath :=
  let info := src.queryPathInfo p
  if info.ca.isSome ∧ info.references = [] ∧ info.hasSelfReference = false then
    match ValidPathInfo.fullContentAddressOpt info with
    | .ok (some fca) => makeFixedOutputPathFromCA dst.store fca
    | .ok none => .error .assertFail
    | .error e => .error e
  else .ok p

/-- The paths-map computation of copyPaths: every root first maps to
itself, then every missing path is reassigned its destination path.
The dependency-respecting parallel traversal only affects scheduling;
both of its lambdas insert the same (srcPath → dstPath) entry, folded
here once per missing path. -/
def copyPathsMap (src dst : StoreHandle) (storePaths : List StorePath) :
    Except Err (List (StorePath × StorePath)) :=
  let valid := storePaths.filter dst.isValidPath
  let missing := storePaths.filter (fun p => !(valid.contains p))
  let pathsMap := storePaths.foldl (fun m p => insertOrAssignSP p p m) []
  missing.foldlM (fun m p => (storePathForDst src dst p).map (fun d => insertOrAssignSP p d m))
    pathsMap

theorem lookup_insertOrAssignSP {β : Type} (k k' : StorePath) (v : β) (m : List (StorePath × β)) :
    lookupSP (insertOrAssignSP k v m) k' = if k' = k then some v else lookupSP m k' := by
  induction m with
  | nil => simp [insertOrAssignSP, lookupSP]
  | cons kv t ih =>
    obtain ⟨k0, v0⟩ := kv
    by_cases hk : k = k0
    · subst hk
      simp only [insertOrAssignSP, if_pos rfl]
      by_cases hk' : k' = k
      · simp [lookupSP, hk']
      · simp [lookupSP, hk']
    · simp only [insertOrAssignSP, if_neg hk]
      by_cases hlt : spToString k < spToString k0
      · simp only [if_pos hlt]
        by_cases hk' : k' = k
        · simp [lookupSP, hk']
        · simp [lookupSP, hk']
      · simp only [if_neg hlt]
        by_cases hk' : k' = k0
        · have hne : ¬(k' = k) := fun hh => hk (hh.symm.trans hk')
          have hne0 : ¬(k0 = k) := fun hh => hk hh.symm
          simp [lookupSP, hk', hne, hne0]
        · simp [lookupSP, hk', ih]

theorem lookup_foldl_insert_id (l : List StorePath) :
    ∀ (m : List (StorePath × StorePath)) (p : StorePath),
    lookupSP (l.foldl (fun m q => insertOrAssignSP q q m) m) p
      = if p ∈ l then some p else lookupSP m p := by
  induction l with
  | nil => intro m p; simp
  | cons q t ih =>
    intro m p
    simp only [List.foldl_cons, ih]
    by_cases hpt : p ∈ t
    · simp [hpt]
    · simp only [if_neg hpt]
      rw [lookup_insertOrAssignSP]
      by_cases hpq : p = q
      · subst hpq; simp
      · simp [hpq, hpt]

theorem lookup_foldlM_insert (f : StorePath → Except Err StorePath) (l : List StorePath) :
    ∀ (m0 m : List (StorePath × StorePath)),
    l.foldlM (fun mm p => (f p).map (fun d => insertOrAssignSP p d mm)) m0 = .ok m →
    ∀ p, (p ∈ l → ∃ d, f p = .ok d ∧ lookupSP m p = some d)
       ∧ (p ∉ l → lookupSP m p = lookupSP m0 p) := by
  induction l with
  | nil =>
    intro m0 m hok p
    refine ⟨fun hmem => absurd hmem (List.not_mem_nil p), fun _ => ?_⟩
    cases hok
    rfl
  | cons q t ih =>
    intro m0 m hok p
    rw [List.foldlM_cons] at hok
    cases hfq : f q with
    | error e => simp only [hfq] at hok; exact nomatch hok
    | ok d0 =>
      simp only [hfq, Except.map, Except.bind] at hok
      have H := ih (insertOrAssignSP q d0 m0) m hok
      refine ⟨?_, ?_⟩
      · intro hmem
        by_cases hpt : p ∈ t
        · exact (H p).1 hpt
        · have hpq : p = q := by
            rcases List.mem_cons.mp hmem with h | h
            · exact h
            · exact absurd h hpt
          subst hpq
          refine ⟨d0, hfq, ?_⟩
          rw [(H p).2 hpt, lookup_insertOrAssignSP]
          simp
      · intro hnmem
        have hnt : p ∉ t := fun hh => hnmem (List.mem_cons_of_mem _ hh)
        have hnq : ¬(p = q) := fun hh => hnmem (hh ▸ List.mem_cons_self _ _)
        rw [(H p).2 hnt, lookup_insertOrAssignSP, if_neg hnq]

/-- C8 (amended): in the map copyPaths returns, every missing root
whose source info has a content address and neither references nor a
self reference is mapped to the destination's canonical path recomputed
via makeFixedOutputPathFromCA; every other root is mapped to itself. -/
theorem copyPathsMap_spec (src dst : StoreHandle) (roots : List StorePath)
    (m : List (StorePath × StorePath)) (hok : copyPathsMap src dst roots = .ok m) :
    ∀ p ∈ roots,
      (dst.isValidPath p = false →
        ((src.queryPathInfo p).ca.isSome ∧ (src.queryPathInfo p).references = []
          ∧ (src.queryPathInfo p).hasSelfReference = false) →
        ∃ fca d, ValidPathInfo.fullContentAddressOpt (src.queryPathInfo p) = .ok (some fca)
          ∧ makeFixedOutputPathFromCA dst.store fca = .ok d
          ∧ lookupSP m p = some d)
      ∧ ((dst.isValidPath p = true
          ∨ ¬((src.queryPathInfo p).ca.isSome ∧ (src.queryPathInfo p).references = []
              ∧ (src.queryPathInfo p).hasSelfReference = false)) →
        lookupSP m p = some p) := by
  intro p hp
  unfold copyPathsMap at hok
  have hfold := lookup_foldlM_insert (storePathForDst src dst)
    (roots.filter (fun q => !((roots.filter dst.isValidPath).contains q)))
    (roots.foldl (fun mm q => insertOrAssignSP q q mm) []) m hok p
  have hmiss : p ∈ roots.filter (fun q => !((roots.filter dst.isValidPath).contains q))
      ↔ dst.isValidPath p = false := by
    simp [List.mem_filter, hp]
  refine ⟨?_, ?_⟩
  · intro hnv hca
    obtain ⟨d, hf, hl⟩ := hfold.1 (hmiss.mpr hnv)
    unfold storePathForDst at hf
    rw [if_pos hca] at hf
    cases hfca : ValidPathInfo.fullContentAddressOpt (src.queryPathInfo p) with
    | error e => simp only [hfca] at hf; exact nomatch hf
    | ok o =>
      simp only [hfca] at hf
      cases o with
      | none => exact nomatch hf
      | some fca => exact ⟨fca, d, rfl, hf, hl⟩
  · intro hother
    by_cases hval : dst.isValidPath p = true
    · have hnm : p ∉ roots.filter (fun q => !((roots.filter dst.isValidPath).contains q)) := by
        rw [hmiss, hval]
        simp
      rw [hfold.2 hnm, lookup_foldl_insert_id, if_pos hp]
    · have hnv : dst.isValidPath p = false := by
        cases hb : dst.isValidPath p
        · rfl
        · exact absurd hb hval
      have hnca : ¬((src.queryPathInfo p).ca.isSome ∧ (src.queryPathInfo p).references = []
          ∧ (src.queryPathInfo p).hasSelfReference = false) := by
        cases hother with
        | inl hv => exact absurd hv hval
        | inr hn => exact hn
      obtain ⟨d, hf, hl⟩ := hfold.1 (hmiss.mpr hnv)
      unfold storePathForDst at hf
      rw [if_neg hnca] at hf
      cases hf
      exact hl

/-- A missing source path for the copyPaths examples. -/
def c8p : StorePath := ⟨"00000000000000000000000000000000", "pkg"⟩

/-- A reference target for the copyPaths counterexample. -/
def c8q : StorePath := ⟨"11111111111111111111111111111111", "dep"⟩

/-- Source info of c8p: content-addressed but carrying one reference. -/
def c8info : ValidPathInfo :=
  { path := c8p, deriver := none, narHash := none, narSize := 0,
    references := [c8q], hasSelfReference := false, registrationTime := 0,
    ultimate := false, sigs := [],
    ca := some (.fixedOutputHash ⟨.Recursive, ⟨.sha256, List.replicate 32 3⟩⟩) }

def c8src : StoreHandle := ⟨⟨"/nix/store"⟩, fun _ => false, fun _ => c8info⟩

def c8dst : StoreHandle := ⟨⟨"/gnu/store"⟩, fun _ => false, fun _ => c8info⟩

/-- The destination's recomputed canonical path for c8info's content
address. -/
def c8r : StorePath :=
  match makeFixedOutputPathFromCA c8dst.store
    ⟨"pkg", .fixedOutputInfo ⟨.Recursive, ⟨.sha256, List.replicate 32 3⟩, ⟨[c8q], false⟩⟩⟩ with
  | .ok p => p
  | .error _ => undefinedStorePath

/-- C8 counterexample: for a missing path whose source info has ca set
but carries a reference, the returned map sends the path to itself even
though the destination's recomputed canonical path (the claim's
required image, computable since the stores' directories differ)
exists and differs. -/
theorem copyPathsMap_claim_counterexample :
    copyPathsMap c8src c8dst [c8p] = .ok [(c8p, c8p)]
    ∧ makeFixedOutputPathFromCA c8dst.store
        ⟨"pkg", .fixedOutputInfo ⟨.Recursive, ⟨.sha256, List.replicate 32 3⟩, ⟨[c8q], false⟩⟩⟩
        = .ok c8r
    ∧ c8r ≠ c8p := by
  decide

/-- Source info for the witness: content-addressed, reference-free. -/
def c8bInfo : ValidPathInfo :=
  { path := c8p, deriver := none, narHash := none, narSize := 0,
    references := [], hasSelfReference := false, registrationTime := 0,
    ultimate := false, sigs := [],
    ca := some (.fixedOutputHash ⟨.Recursive, ⟨.sha256, List.replicate 32 5⟩⟩) }

def c8bsrc : StoreHandle := ⟨⟨"/nix/store"⟩, fun _ => false, fun _ => c8bInfo⟩

def c8bdst : StoreHandle := ⟨⟨"/gnu/store"⟩, fun _ => false, fun _ => c8bInfo⟩

/-- The recomputed destination path of the witness info. -/
def c8bd : StorePath :=
  match ValidPathInfo.fullContentAddressOpt c8bInfo with
  | .ok (some fca) =>
    match makeFixedOutputPathFromCA c8bdst.store fca with
    | .ok p => p
    | .error _ => undefinedStorePath
  | _ => undefinedStorePath

/-- C8 witness: the amended theorem applied to a concrete
content-addressed reference-free missing path. -/
theorem copyPathsMap_spec_witness :
    copyPathsMap c8bsrc c8bdst [c8p] = .ok [(c8p, c8bd)]
    ∧ ∃ fca d,
        ValidPathInfo.fullContentAddressOpt (c8bsrc.queryPathInfo c8p) = .ok (some fca)
        ∧ makeFixedOutputPathFromCA c8bdst.store fca = .ok d
        ∧ lookupSP [(c8p, c8bd)] c8p = some d :=
  ⟨by decide,
   ((copyPathsMap_spec c8bsrc c8bdst [c8p] [(c8p, c8bd)] (by decide)) c8p
       (List.mem_cons_self _ _)).1 rfl (by decide)⟩

end NixStore
